import Mathlib

/-!
Shallow embedding of the polkadot-registrar-bot core
(src/manager.rs and src/projection/judgment_giver.rs).

Rust `HashMap` is modelled as an association list (`List (key × value)`)
with insert-replaces-value semantics, and `HashSet` as a `List` used as a
set (insert only when absent).  Fallible operations (`Result<T>` in Rust)
become `Except ManagerError T`; an error result models the Rust early
return in which `&mut self` is left untouched.
-/

set_option autoImplicit false

namespace Registrar

/-- Association-list lookup: first binding wins, mirroring `HashMap::get`
(a well-formed `HashMap` has at most one binding per key; our operations
below keep at most one binding per key). -/
def lookupA {α β : Type} [DecidableEq α] : List (α × β) → α → Option β
  | [], _ => none
  | (k, v) :: rest, a => if k = a then some v else lookupA rest a

/-- Drop every binding for key `a`, mirroring `HashMap::remove`. -/
def eraseA {α β : Type} [DecidableEq α] : List (α × β) → α → List (α × β)
  | [], _ => []
  | (k, v) :: rest, a => if k = a then eraseA rest a else (k, v) :: eraseA rest a

/-- `HashMap::insert`: the new binding replaces any previous binding of `a`. -/
def insertA {α β : Type} [DecidableEq α] (l : List (α × β)) (a : α) (b : β) : List (α × β) :=
  (a, b) :: eraseA l a

/-- `HashSet::insert` on a list used as a set. -/
def insertSet {α : Type} [DecidableEq α] (s : List α) (a : α) : List α :=
  if a ∈ s then s else s ++ [a]

/-! ## Domain model (src/manager.rs) -/

/-- `IdentityAddress(String)` -/
structure IdentityAddress where
  val : String
  deriving DecidableEq, Repr

/-- `NetworkAddress`: tagged union over supported networks. -/
inductive NetworkAddress where
  | polkadot (address : IdentityAddress)
  | kusama (address : IdentityAddress)
  deriving DecidableEq, Repr

/-- `FieldAddress(String)` -/
structure FieldAddress where
  val : String
  deriving DecidableEq, Repr

/-- `DisplayName(String)` -/
structure DisplayName where
  val : String
  deriving DecidableEq, Repr

/-- `IdentityField`: tagged union of verifiable attribute kinds. -/
inductive IdentityField where
  | legalName (address : FieldAddress)
  | displayName (address : FieldAddress)
  | email (address : FieldAddress)
  | web (address : FieldAddress)
  | twitter (address : FieldAddress)
  | matrix (address : FieldAddress)
  | pgpFingerprint (address : FieldAddress)
  | image
  | additional
  deriving DecidableEq, Repr

/-- `Validity`: tri-state. -/
inductive Validity where
  | valid
  | invalid
  | unconfirmed
  deriving DecidableEq, Repr

/-- `ExpectedMessage(String)` -/
structure ExpectedMessage where
  val : String
  deriving DecidableEq, Repr

/-- `ProvidedMessagePart(String)` -/
structure ProvidedMessagePart where
  val : String
  deriving DecidableEq, Repr

/-- `ProvidedMessage { parts: Vec<ProvidedMessagePart> }` -/
structure ProvidedMessage where
  parts : List ProvidedMessagePart
  deriving DecidableEq, Repr

/-- `ExpectMessageChallenge`; the Rust field `from` is spelled `fromF`
(`from` is a Lean keyword), `to` is spelled `toF` for symmetry. -/
structure ExpectMessageChallenge where
  expected_message : ExpectedMessage
  fromF : IdentityField
  toF : IdentityField
  status : Validity
  deriving DecidableEq, Repr

/-- `BackAndForthChallenge` -/
structure BackAndForthChallenge where
  expected_message : ExpectedMessage
  expected_message_back : ExpectedMessage
  fromF : IdentityField
  toF : IdentityField
  first_check_status : Validity
  second_check_status : Validity
  deriving DecidableEq, Repr

/-- `CheckDisplayNameChallenge` -/
structure CheckDisplayNameChallenge where
  status : Validity
  similarities : Option (List DisplayName)
  deriving DecidableEq, Repr

/-- `ChallengeStatus`: tagged union of challenge kinds. -/
inductive ChallengeStatus where
  | expectMessage (c : ExpectMessageChallenge)
  | backAndForth (c : BackAndForthChallenge)
  | checkDisplayName (c : CheckDisplayNameChallenge)
  deriving DecidableEq, Repr

/-- `FieldStatus { field, is_permitted, challenge }` -/
structure FieldStatus where
  field : IdentityField
  is_permitted : Bool
  challenge : ChallengeStatus
  deriving DecidableEq, Repr

/-- `FieldStatus::is_valid` (src/manager.rs lines 237-256): `ExpectMessage`
and `CheckDisplayName` are valid iff their status is `Valid`; `BackAndForth`
iff both check statuses are `Valid`. -/
def FieldStatus.is_valid (s : FieldStatus) : Bool :=
  match s.challenge with
  | .expectMessage state => state.status = Validity.valid
  | .backAndForth state =>
      state.first_check_status = Validity.valid ∧ state.second_check_status = Validity.valid
  | .checkDisplayName state => state.status = Validity.valid

/-- `IdentityState { net_address, fields }` -/
structure IdentityState where
  net_address : NetworkAddress
  fields : List FieldStatus
  deriving DecidableEq, Repr

/-- `hasPrefixL hay tok`: `tok` is a prefix of `hay` (as char lists). -/
def hasPrefixL : List Char → List Char → Bool
  | _, [] => true
  | [], _ :: _ => false
  | h :: hs, t :: ts => decide (h = t) && hasPrefixL hs ts

/-- `hasSubL hay tok`: `tok` occurs as a contiguous sublist of `hay`. -/
def hasSubL : List Char → List Char → Bool
  | [], tok => tok.isEmpty
  | h :: rest, tok => hasPrefixL (h :: rest) tok || hasSubL rest tok

/-- Rust `str::contains` on a string pattern is substring containment;
`strContainsSub hay tok` models `hay.contains(tok)`. -/
def strContainsSub (hay tok : String) : Bool :=
  hasSubL hay.data tok.data

/-- `ExpectedMessage::contains` (src/manager.rs lines 343-353): returns the
first part `p` of the provided message for which `self.0.contains(&p.0)`
holds — i.e. for which the PART is a substring of the EXPECTED token. -/
def ExpectedMessage.containsMsg (e : ExpectedMessage) (message : ProvidedMessage) :
    Option ProvidedMessagePart :=
  message.parts.find? (fun part => strContainsSub e.val part.val)

/-- Manager error taxonomy: `anyhow!("network address not found")` /
`Error::TargetAddressNotFound` model as `addressNotFound`,
`anyhow!("field not found")` as `fieldNotFound`. -/
inductive ManagerError where
  | addressNotFound
  | fieldNotFound
  deriving DecidableEq, Repr

/-- `VerificationOutcome { net_address, field_status }` -/
structure VerificationOutcome where
  net_address : NetworkAddress
  field_status : FieldStatus
  deriving DecidableEq, Repr

/-- `IdentityManager { identities, lookup_addresses }` -/
structure IdentityManager where
  identities : List (NetworkAddress × List FieldStatus)
  lookup_addresses : List (IdentityField × List NetworkAddress)
  deriving DecidableEq, Repr

namespace IdentityManager

/-- `IdentityManager::new` / `Default`. -/
def new : IdentityManager := ⟨[], []⟩

/-- One step of the reverse-index build inside `insert_identity`:
`lookup_addresses.entry(&field.field).and_modify(insert).or_insert({net_address})`. -/
def addAddr (idx : List (IdentityField × List NetworkAddress))
    (f : IdentityField) (a : NetworkAddress) : List (IdentityField × List NetworkAddress) :=
  match lookupA idx f with
  | some s => insertA idx f (insertSet s a)
  | none => insertA idx f [a]

/-- `IdentityManager::insert_identity` (src/manager.rs lines 23-41): inserts
the fields under the address (replacing any previous entry — there is no
duplicate check) and extends the reverse index with every field of the
inserted state. -/
def insert_identity (m : IdentityManager) (identity : IdentityState) : IdentityManager :=
  { identities := insertA m.identities identity.net_address identity.fields
    lookup_addresses :=
      identity.fields.foldl (fun idx fs => addAddr idx fs.field identity.net_address)
        m.lookup_addresses }

/-- Replace the first status whose `field` equals `st.field` by `st`
(`statuses.iter_mut().find(..).map(|status| *status = field_status)`);
`none` when no status matches. -/
def replaceFirstField : List FieldStatus → FieldStatus → Option (List FieldStatus)
  | [], _ => none
  | s :: rest, st =>
      if s.field = st.field then some (st :: rest)
      else (replaceFirstField rest st).map (fun r => s :: r)

/-- `IdentityManager::update_field` (src/manager.rs lines 42-60). An error
models the Rust early return with `&mut self` untouched. -/
def update_field (m : IdentityManager) (net_address : NetworkAddress)
    (field_status : FieldStatus) : Except ManagerError IdentityManager :=
  match lookupA m.identities net_address with
  | none => .error .addressNotFound
  | some statuses =>
      match replaceFirstField statuses field_status with
      | none => .error .fieldNotFound
      | some statuses' =>
          .ok { m with identities := insertA m.identities net_address statuses' }

/-- `IdentityManager::lookup_field_status` (src/manager.rs lines 61-71). -/
def lookup_field_status (m : IdentityManager) (net_address : NetworkAddress)
    (field : IdentityField) : Option FieldStatus :=
  (lookupA m.identities net_address).bind
    (fun statuses => statuses.find? (fun status => decide (status.field = field)))

/-- `IdentityManager::lookup_addresses` the method (src/manager.rs lines 84-88). -/
def lookupAddresses (m : IdentityManager) (field : IdentityField) :
    Option (List NetworkAddress) :=
  lookupA m.lookup_addresses field

/-- `IdentityManager::lookup_full_state` (src/manager.rs lines 89-96). -/
def lookup_full_state (m : IdentityManager) (net_address : NetworkAddress) :
    Option IdentityState :=
  (lookupA m.identities net_address).map
    (fun fields => { net_address := net_address, fields := fields })

/-- `IdentityManager::verify_message` (src/manager.rs lines 97-144). Takes
`&self`; for every address claiming the field whose challenge is
`ExpectMessage` and not yet `Valid`, pushes one outcome — note the source
pushes the SAME outcome whether or not the message matched. -/
def verify_message (m : IdentityManager) (field : IdentityField)
    (message : ProvidedMessage) : List VerificationOutcome :=
  match m.lookupAddresses field with
  | none => []
  | some net_addresses =>
      net_addresses.foldl
        (fun outcomes net_address =>
          match m.lookup_field_status net_address field with
          | none => outcomes
          | some field_status =>
              match field_status.challenge with
              | .expectMessage challenge =>
                  if challenge.status ≠ Validity.valid then
                    outcomes ++
                      [if (challenge.expected_message.containsMsg message).isSome then
                        { net_address := net_address, field_status := field_status }
                      else
                        { net_address := net_address, field_status := field_status }]
                  else outcomes
              | _ => outcomes)
        []

/-- `IdentityManager::verify_message` viewed with its receiver state, to
state no-mutation: Rust takes `&self`, so the state component is returned
unchanged. -/
def verify_message_call (m : IdentityManager) (field : IdentityField)
    (message : ProvidedMessage) : List VerificationOutcome × IdentityManager :=
  (verify_message m field message, m)

/-- `IdentityManager::set_verified` (src/manager.rs lines 146-154): returns
whether the field status was found; the mutation
(`field_status.is_valid = true`) is COMMENTED OUT in the source, so the
state is returned unchanged. -/
def set_verified (m : IdentityManager) (net_address : NetworkAddress)
    (field : IdentityField) : Bool × IdentityManager :=
  if (m.lookup_field_status net_address field).isSome then (true, m) else (false, m)

/-- `IdentityManager::is_fully_verified` (src/manager.rs lines 156-164): the
source uses `.any(|status| status.is_valid())` — true as soon as ONE field
status is valid. -/
def is_fully_verified (m : IdentityManager) (net_address : NetworkAddress) :
    Except ManagerError Bool :=
  match lookupA m.identities net_address with
  | some field_statuses => .ok (field_statuses.any (fun status => status.is_valid))
  | none => .error .addressNotFound

/-- `IdentityManager::remove_identity` (src/manager.rs lines 166-168): the
body is the single expression `false` — nothing is removed. -/
def remove_identity (m : IdentityManager) (_net_address : NetworkAddress) :
    Bool × IdentityManager :=
  (false, m)

end IdentityManager

/-! ## Judgement Correlator (src/projection/judgment_giver.rs) -/

/-- Modelled from the spec: `RemarkFound` (defined in the repository's
event module, which is not under src/) is "an observed on-chain remark
tied to a `NetworkAddress`"; its `net_address` and `remark` fields are the
ones read by `JudgmentGiver::project`. -/
structure RemarkFound where
  net_address : NetworkAddress
  remark : String
  deriving DecidableEq, Repr

/-- Modelled from the spec: `OnChainChallenge` (defined in the repository's
manager module outside the src/ snapshot) is "the expected on-chain remark
text tied to a `NetworkAddress`". -/
structure OnChainChallenge where
  val : String
  deriving DecidableEq, Repr

/-- Modelled from the spec: "a pairing is satisfied when the observed
remark textually matches the expected challenge for the same address" —
`OnChainChallenge::matches_remark` is textual equality with the remark. -/
def OnChainChallenge.matches_remark (c : OnChainChallenge) (found : RemarkFound) : Bool :=
  c.val = found.remark

/-- Payload of `EventType::IdentityFullyVerified` as read by the
projection: the verified identity's address and its on-chain challenge. -/
structure IdentityFullyVerified where
  net_address : NetworkAddress
  on_chain_challenge : OnChainChallenge
  deriving DecidableEq, Repr

/-- Payload of `EventType::JudgementGiven`. -/
structure JudgementGiven where
  net_address : NetworkAddress
  deriving DecidableEq, Repr

/-- The event kinds `JudgmentGiver::project` matches on; `other` stands
for every event kind the projection ignores (the `_ => {}` arm). -/
inductive EventType where
  | identityFullyVerified (identity : IdentityFullyVerified)
  | remarkFound (found : RemarkFound)
  | judgementGiven (given : JudgementGiven)
  | other
  deriving DecidableEq, Repr

/-- `JudgementCompleted::from(found)`: the websocket notification issued by
`issue_system_async` — the judgement-completed signal. -/
structure JudgementCompleted where
  found : RemarkFound
  deriving DecidableEq, Repr

/-- `JudgmentGiver { remarks, pending }` -/
structure JudgmentGiver where
  remarks : List (NetworkAddress × RemarkFound)
  pending : List (NetworkAddress × OnChainChallenge)
  deriving DecidableEq, Repr

namespace JudgmentGiver

/-- The empty correlator state. -/
def empty : JudgmentGiver := ⟨[], []⟩

/-- `JudgmentGiver::project` (src/projection/judgment_giver.rs lines
24-86), returning the new state and the list of `JudgementCompleted`
signals issued during the step.  Notes from the source:
* In the `IdentityFullyVerified` arm the signal is issued whenever a
  stored remark is popped — WHETHER OR NOT it matches (the `if`/`else`
  only chooses between an info and a warning log; the
  `issue_system_async` call sits after it) — and `pending` is then set
  unconditionally.
* In the `RemarkFound` arm a signal is issued only when a pending
  challenge exists and matches; `pending` is never modified there. -/
def project (s : JudgmentGiver) (event : EventType) :
    JudgmentGiver × List JudgementCompleted :=
  match event with
  | .identityFullyVerified identity =>
      match lookupA s.remarks identity.net_address with
      | some found =>
          ({ remarks := eraseA s.remarks identity.net_address
             pending := insertA s.pending identity.net_address identity.on_chain_challenge },
           [{ found := found }])
      | none =>
          ({ s with
             pending := insertA s.pending identity.net_address identity.on_chain_challenge },
           [])
  | .remarkFound found =>
      match lookupA s.pending found.net_address with
      | some challenge =>
          if challenge.matches_remark found then (s, [{ found := found }]) else (s, [])
      | none =>
          ({ s with remarks := insertA s.remarks found.net_address found }, [])
  | .judgementGiven given =>
      ({ remarks := eraseA s.remarks given.net_address
         pending := eraseA s.pending given.net_address }, [])
  | .other => (s, [])

/-- Fold `project` over an event list, accumulating the issued signals in
order. -/
def projectList (s : JudgmentGiver) : List EventType → JudgmentGiver × List JudgementCompleted
  | [] => (s, [])
  | e :: rest =>
      let step := project s e
      let next := projectList step.1 rest
      (next.1, step.2 ++ next.2)

end JudgmentGiver

/-! ## Manager operation sequences and the reverse-index invariant -/

/-- Membership of address `a` in the reverse index under field `f`:
`a ∈ lookup_addresses(f)`. -/
def memIdx (idx : List (IdentityField × List NetworkAddress))
    (f : IdentityField) (a : NetworkAddress) : Prop :=
  ∃ s, lookupA idx f = some s ∧ a ∈ s

/-- Reverse-index consistency: an address is listed under a field exactly
when its stored identity carries a status with that exact field. -/
def consistent (m : IdentityManager) : Prop :=
  ∀ f a, memIdx m.lookup_addresses f a ↔
    ∃ fss, lookupA m.identities a = some fss ∧ ∃ s ∈ fss, s.field = f

/-- The mutating manager operations of the invariant claim. -/
inductive Op where
  | insertOp (st : IdentityState)
  | updateOp (a : NetworkAddress) (st : FieldStatus)
  | removeOp (a : NetworkAddress)
  deriving DecidableEq, Repr

/-- Apply one operation; a failing `update_field` leaves the state
untouched (the Rust error return), as does `remove_identity` (stub). -/
def applyOp (m : IdentityManager) : Op → IdentityManager
  | .insertOp st => m.insert_identity st
  | .updateOp a st =>
      match m.update_field a st with
      | .ok m' => m'
      | .error _ => m
  | .removeOp a => (m.remove_identity a).2

/-- Apply a whole operation sequence. -/
def applyOps (m : IdentityManager) : List Op → IdentityManager
  | [] => m
  | op :: rest => applyOps (applyOp m op) rest

/-- One operation is a fresh-address insert or a non-insert. -/
def freshOk (m : IdentityManager) : Op → Bool
  | .insertOp st => (lookupA m.identities st.net_address).isNone
  | _ => true

/-- Along the sequence, every `insert_identity` hits an address not
currently present. -/
def freshInserts (m : IdentityManager) : List Op → Bool
  | [] => true
  | op :: rest => freshOk m op && freshInserts (applyOp m op) rest

/-! ## Concrete fixtures -/

/-- A concrete Polkadot address. -/
def addrA : NetworkAddress := .polkadot ⟨"addr-a"⟩

/-- A concrete email field. -/
def emailField : IdentityField := .email ⟨"alice@example.org"⟩

/-- A concrete Twitter field. -/
def twitterField : IdentityField := .twitter ⟨"@alice"⟩

/-- A concrete Matrix field. -/
def matrixField : IdentityField := .matrix ⟨"@alice:matrix.org"⟩

/-- An already-valid `ExpectMessage` status on the email field. -/
def validEmailStatus : FieldStatus :=
  { field := emailField
    is_permitted := true
    challenge := .expectMessage
      { expected_message := ⟨"4451123907"⟩
        fromF := emailField
        toF := emailField
        status := .valid } }

/-- An unconfirmed `ExpectMessage` status on the Matrix field. -/
def unconfirmedMatrixStatus : FieldStatus :=
  { field := matrixField
    is_permitted := true
    challenge := .expectMessage
      { expected_message := ⟨"1127233905"⟩
        fromF := matrixField
        toF := matrixField
        status := .unconfirmed } }

/-- The Matrix status with its challenge marked valid. -/
def verifiedMatrixStatus : FieldStatus :=
  { field := matrixField
    is_permitted := true
    challenge := .expectMessage
      { expected_message := ⟨"1127233905"⟩
        fromF := matrixField
        toF := matrixField
        status := .valid } }

/-- An unconfirmed status on the Twitter field (absent from the fixture
identities). -/
def twitterStatus : FieldStatus :=
  { field := twitterField
    is_permitted := true
    challenge := .expectMessage
      { expected_message := ⟨"9982231175"⟩
        fromF := twitterField
        toF := twitterField
        status := .unconfirmed } }

/-- One valid and one not-yet-valid field. -/
def mixedFields : List FieldStatus := [validEmailStatus, unconfirmedMatrixStatus]

/-- Manager holding `addrA` with `mixedFields`. -/
def mixedManager : IdentityManager :=
  IdentityManager.new.insert_identity ⟨addrA, mixedFields⟩

/-- Manager holding `addrA` with only the unconfirmed Matrix field. -/
def unconfirmedManager : IdentityManager :=
  IdentityManager.new.insert_identity ⟨addrA, [unconfirmedMatrixStatus]⟩

/-- First identity payload for the duplicate-insert scenario. -/
def fieldsOne : List FieldStatus := [validEmailStatus]

/-- Second identity payload for the duplicate-insert scenario. -/
def fieldsTwo : List FieldStatus := [unconfirmedMatrixStatus]

/-- Insert `addrA` twice: first with `fieldsOne`, then with `fieldsTwo`. -/
def dupManager : IdentityManager :=
  (IdentityManager.new.insert_identity ⟨addrA, fieldsOne⟩).insert_identity ⟨addrA, fieldsTwo⟩

/-- A concrete fresh-insert operation sequence. -/
def witnessOps : List Op :=
  [.insertOp ⟨addrA, mixedFields⟩, .updateOp addrA verifiedMatrixStatus, .removeOp addrA]

/-! ## Association-list lemmas -/

@[simp] theorem lookupA_nil {α β : Type} [DecidableEq α] (a : α) :
    lookupA ([] : List (α × β)) a = none := rfl

@[simp] theorem lookupA_cons {α β : Type} [DecidableEq α]
    (k : α) (v : β) (rest : List (α × β)) (a : α) :
    lookupA ((k, v) :: rest) a = if k = a then some v else lookupA rest a := rfl

theorem lookupA_eraseA {α β : Type} [DecidableEq α] (l : List (α × β)) (a c : α) :
    lookupA (eraseA l a) c = if c = a then none else lookupA l c := by
  induction l with
  | nil => simp [eraseA]
  | cons p rest ih =>
    obtain ⟨k, v⟩ := p
    by_cases hka : k = a
    · subst hka
      by_cases hck : c = k
      · subst hck
        simp [eraseA, ih]
      · have hkc : ¬ k = c := fun h => hck h.symm
        simp [eraseA, hck, hkc, ih]
    · by_cases hkc : k = c
      · subst hkc
        simp [eraseA, hka, ih]
      · simp [eraseA, hka, hkc, ih]

theorem lookupA_insertA {α β : Type} [DecidableEq α] (l : List (α × β)) (a : α) (b : β) (c : α) :
    lookupA (insertA l a b) c = if c = a then some b else lookupA l c := by
  by_cases h : c = a
  · subst h; simp [insertA]
  · have h' : ¬ a = c := fun hh => h hh.symm
    simp [insertA, h, h', lookupA_eraseA]

theorem mem_insertSet {α : Type} [DecidableEq α] (s : List α) (a b : α) :
    b ∈ insertSet s a ↔ b ∈ s ∨ b = a := by
  unfold insertSet
  by_cases h : a ∈ s
  · simp only [if_pos h]
    constructor
    · exact Or.inl
    · rintro (hb | rfl)
      · exact hb
      · exact h
  · simp [if_neg h]

/-! ## Reverse-index lemmas -/

theorem memIdx_iff (idx : List (IdentityField × List NetworkAddress))
    (f : IdentityField) (a : NetworkAddress) :
    memIdx idx f a ↔ ∃ s, lookupA idx f = some s ∧ a ∈ s := Iff.rfl

theorem memIdx_addAddr (idx : List (IdentityField × List NetworkAddress))
    (f : IdentityField) (a : NetworkAddress) (g : IdentityField) (b : NetworkAddress) :
    memIdx (IdentityManager.addAddr idx f a) g b ↔ memIdx idx g b ∨ (g = f ∧ b = a) := by
  unfold IdentityManager.addAddr
  cases hf : lookupA idx f with
  | some s =>
    by_cases hgf : g = f
    · subst hgf
      simp [memIdx_iff, lookupA_insertA, hf, mem_insertSet]
    · simp only [memIdx_iff, lookupA_insertA, if_neg hgf]
      constructor
      · intro h
        exact Or.inl h
      · intro h
        rcases h with h | ⟨hgf2, -⟩
        · exact h
        · exact absurd hgf2 hgf
  | none =>
    by_cases hgf : g = f
    · subst hgf
      simp [memIdx_iff, lookupA_insertA, hf]
    · simp only [memIdx_iff, lookupA_insertA, if_neg hgf]
      constructor
      · intro h
        exact Or.inl h
      · intro h
        rcases h with h | ⟨hgf2, -⟩
        · exact h
        · exact absurd hgf2 hgf

theorem memIdx_foldl (fields : List FieldStatus)
    (idx : List (IdentityField × List NetworkAddress)) (a : NetworkAddress)
    (g : IdentityField) (b : NetworkAddress) :
    memIdx (fields.foldl (fun i fs => IdentityManager.addAddr i fs.field a) idx) g b ↔
      memIdx idx g b ∨ (b = a ∧ ∃ fs ∈ fields, fs.field = g) := by
  induction fields generalizing idx with
  | nil => simp
  | cons fs rest ih =>
    simp only [List.foldl_cons, ih, memIdx_addAddr, List.mem_cons]
    constructor
    · rintro ((h | ⟨hg, hb⟩) | ⟨hb, f', hf', hfield⟩)
      · exact Or.inl h
      · exact Or.inr ⟨hb, fs, Or.inl rfl, hg.symm⟩
      · exact Or.inr ⟨hb, f', Or.inr hf', hfield⟩
    · rintro (h | ⟨hb, f', (rfl | hf'), hfield⟩)
      · exact Or.inl (Or.inl h)
      · exact Or.inl (Or.inr ⟨hfield.symm, hb⟩)
      · exact Or.inr ⟨hb, f', hf', hfield⟩

/-! ## replaceFirstField lemmas -/

theorem replaceFirstField_map_field (fss : List FieldStatus) (st : FieldStatus)
    (fss' : List FieldStatus) (h : IdentityManager.replaceFirstField fss st = some fss') :
    fss'.map (fun s => s.field) = fss.map (fun s => s.field) := by
  induction fss generalizing fss' with
  | nil => cases h
  | cons s rest ih =>
    unfold IdentityManager.replaceFirstField at h
    by_cases hs : s.field = st.field
    · rw [if_pos hs] at h
      cases h
      simp [hs]
    · rw [if_neg hs] at h
      cases hr : IdentityManager.replaceFirstField rest st with
      | none => rw [hr] at h; cases h
      | some r =>
        rw [hr] at h
        cases h
        simp [ih r hr]

theorem replaceFirstField_none (fss : List FieldStatus) (st : FieldStatus)
    (h : ∀ s ∈ fss, s.field ≠ st.field) :
    IdentityManager.replaceFirstField fss st = none := by
  induction fss with
  | nil => rfl
  | cons s rest ih =>
    unfold IdentityManager.replaceFirstField
    rw [if_neg (h s (List.mem_cons_self s rest)), ih (fun t ht => h t (List.mem_cons_of_mem s ht))]
    rfl

theorem replaceFirstField_isSome (fss : List FieldStatus) (st : FieldStatus)
    (h : st.field ∈ fss.map (fun s => s.field)) :
    ∃ fss', IdentityManager.replaceFirstField fss st = some fss' := by
  induction fss with
  | nil => simp at h
  | cons s rest ih =>
    unfold IdentityManager.replaceFirstField
    by_cases hs : s.field = st.field
    · exact ⟨st :: rest, by rw [if_pos hs]⟩
    · simp only [List.map_cons, List.mem_cons] at h
      rcases h with h | h
      · exact absurd h.symm hs
      · obtain ⟨r, hr⟩ := ih h
        exact ⟨s :: r, by rw [if_neg hs, hr]; rfl⟩

theorem find_replaceFirstField (fss : List FieldStatus) (st : FieldStatus)
    (fss' : List FieldStatus) (h : IdentityManager.replaceFirstField fss st = some fss') :
    fss'.find? (fun s => decide (s.field = st.field)) = some st := by
  induction fss generalizing fss' with
  | nil => cases h
  | cons s rest ih =>
    unfold IdentityManager.replaceFirstField at h
    by_cases hs : s.field = st.field
    · rw [if_pos hs] at h
      cases h
      simp [List.find?]
    · rw [if_neg hs] at h
      cases hr : IdentityManager.replaceFirstField rest st with
      | none => rw [hr] at h; cases h
      | some r =>
        rw [hr] at h
        cases h
        have hd : decide (s.field = st.field) = false := by simp [hs]
        simp only [List.find?, hd]
        exact ih r hr

/-! ## Consistency preservation -/

theorem consistent_new : consistent IdentityManager.new := by
  intro f a
  simp [memIdx_iff, IdentityManager.new, consistent]

theorem lookupA_insert_identity (m : IdentityManager) (st : IdentityState) (c : NetworkAddress) :
    lookupA (m.insert_identity st).identities c =
      if c = st.net_address then some st.fields else lookupA m.identities c := by
  simp [IdentityManager.insert_identity, lookupA_insertA]

theorem memIdx_insert_identity (m : IdentityManager) (st : IdentityState)
    (g : IdentityField) (b : NetworkAddress) :
    memIdx (m.insert_identity st).lookup_addresses g b ↔
      memIdx m.lookup_addresses g b ∨
        (b = st.net_address ∧ ∃ fs ∈ st.fields, fs.field = g) := by
  simp only [IdentityManager.insert_identity]
  exact memIdx_foldl st.fields m.lookup_addresses st.net_address g b

theorem consistent_insert (m : IdentityManager) (st : IdentityState) (hm : consistent m)
    (hfresh : lookupA m.identities st.net_address = none) :
    consistent (m.insert_identity st) := by
  intro f a
  rw [memIdx_insert_identity]
  by_cases ha : a = st.net_address
  · subst ha
    constructor
    · rintro (h | ⟨-, hf⟩)
      · exfalso
        rcases (hm f st.net_address).mp h with ⟨fss, hfss, -⟩
        rw [hfresh] at hfss
        cases hfss
      · exact ⟨st.fields, by rw [lookupA_insert_identity, if_pos rfl], hf⟩
    · rintro ⟨fss, hfss, hf⟩
      rw [lookupA_insert_identity, if_pos rfl] at hfss
      cases hfss
      exact Or.inr ⟨rfl, hf⟩
  · constructor
    · rintro (h | ⟨hb, -⟩)
      · rcases (hm f a).mp h with ⟨fss, hfss, hf⟩
        exact ⟨fss, by rw [lookupA_insert_identity, if_neg ha]; exact hfss, hf⟩
      · exact absurd hb ha
    · rintro ⟨fss, hfss, hf⟩
      rw [lookupA_insert_identity, if_neg ha] at hfss
      exact Or.inl ((hm f a).mpr ⟨fss, hfss, hf⟩)

theorem consistent_update (m : IdentityManager) (a0 : NetworkAddress) (st : FieldStatus)
    (m' : IdentityManager) (hm : consistent m)
    (h : m.update_field a0 st = .ok m') : consistent m' := by
  unfold IdentityManager.update_field at h
  split at h
  · cases h
  · rename_i statuses hid
    split at h
    · cases h
    · rename_i statuses' hrep
      cases h
      have hmap := replaceFirstField_map_field statuses st statuses' hrep
      intro f a
      constructor
      · intro hmem
        rcases (hm f a).mp hmem with ⟨fss, hfss, s, hs, hseq⟩
        by_cases ha : a = a0
        · subst ha
          rw [hid] at hfss
          cases hfss
          refine ⟨statuses', by simp [lookupA_insertA], ?_⟩
          have hmem2 : f ∈ statuses.map (fun t => t.field) :=
            List.mem_map.mpr ⟨s, hs, hseq⟩
          rw [← hmap] at hmem2
          rcases List.mem_map.mp hmem2 with ⟨t, ht, hteq⟩
          exact ⟨t, ht, hteq⟩
        · exact ⟨fss, by rw [lookupA_insertA, if_neg ha]; exact hfss, s, hs, hseq⟩
      · rintro ⟨fss, hfss, s, hs, hseq⟩
        by_cases ha : a = a0
        · subst ha
          rw [lookupA_insertA, if_pos rfl] at hfss
          cases hfss
          have hmem2 : f ∈ statuses'.map (fun t => t.field) :=
            List.mem_map.mpr ⟨s, hs, hseq⟩
          rw [hmap] at hmem2
          rcases List.mem_map.mp hmem2 with ⟨t, ht, hteq⟩
          exact (hm f a).mpr ⟨statuses, hid, t, ht, hteq⟩
        · rw [lookupA_insertA, if_neg ha] at hfss
          exact (hm f a).mpr ⟨fss, hfss, s, hs, hseq⟩

theorem consistent_applyOp (m : IdentityManager) (op : Op) (hm : consistent m)
    (hop : freshOk m op = true) : consistent (applyOp m op) := by
  cases op with
  | insertOp st =>
    have hfresh : lookupA m.identities st.net_address = none := by
      simpa [freshOk, Option.isNone_iff_eq_none] using hop
    exact consistent_insert m st hm hfresh
  | updateOp a st =>
    simp only [applyOp]
    cases h : m.update_field a st with
    | ok m' => exact consistent_update m a st m' hm h
    | error e => exact hm
  | removeOp a => exact hm

theorem consistent_applyOps (ops : List Op) :
    ∀ m, consistent m → freshInserts m ops = true → consistent (applyOps m ops) := by
  induction ops with
  | nil =>
    intro m hm _
    exact hm
  | cons op rest ih =>
    intro m hm hf
    simp only [freshInserts, Bool.and_eq_true] at hf
    exact ih (applyOp m op) (consistent_applyOp m op hm hf.1) hf.2

/-! ## Claim theorems -/

/-- Claim C1 (code-bug evidence): on a manager holding `addrA` with one
valid and one unconfirmed field status, `is_fully_verified` answers
`Ok(true)` even though not every field status is valid — the source
aggregates with `.any(..)` where the claim (and the function's name)
require `.all(..)`. -/
theorem is_fully_verified_any_at_mixedManager :
    IdentityManager.is_fully_verified mixedManager addrA = .ok true ∧
    lookupA mixedManager.identities addrA = some mixedFields ∧
    mixedFields.all (fun s => s.is_valid) = false :=
  ⟨rfl, rfl, rfl⟩

/-- Claim C2: for every address and every matching challenge/remark pair,
feeding one `IdentityFullyVerified` and one `RemarkFound` event to the
correlator from the empty state emits exactly one judgement-completed
signal for that address, in either arrival order. -/
theorem correlator_exactly_once (addr : NetworkAddress) (c r : String)
    (h : (OnChainChallenge.mk c).matches_remark ⟨addr, r⟩ = true) :
    (JudgmentGiver.projectList JudgmentGiver.empty
        [.identityFullyVerified ⟨addr, ⟨c⟩⟩, .remarkFound ⟨addr, r⟩]).2 =
      [⟨⟨addr, r⟩⟩] ∧
    (JudgmentGiver.projectList JudgmentGiver.empty
        [.remarkFound ⟨addr, r⟩, .identityFullyVerified ⟨addr, ⟨c⟩⟩]).2 =
      [⟨⟨addr, r⟩⟩] := by
  constructor
  · simp [JudgmentGiver.projectList, JudgmentGiver.project, JudgmentGiver.empty,
      insertA, eraseA, h]
  · simp [JudgmentGiver.projectList, JudgmentGiver.project, JudgmentGiver.empty,
      insertA, eraseA]

/-- Claim C2 witness at a concrete address and token. -/
theorem correlator_exactly_once_witness :
    (OnChainChallenge.mk "1127233905").matches_remark ⟨addrA, "1127233905"⟩ = true ∧
    ((JudgmentGiver.projectList JudgmentGiver.empty
        [.identityFullyVerified ⟨addrA, ⟨"1127233905"⟩⟩, .remarkFound ⟨addrA, "1127233905"⟩]).2 =
      [⟨⟨addrA, "1127233905"⟩⟩] ∧
    (JudgmentGiver.projectList JudgmentGiver.empty
        [.remarkFound ⟨addrA, "1127233905"⟩, .identityFullyVerified ⟨addrA, ⟨"1127233905"⟩⟩]).2 =
      [⟨⟨addrA, "1127233905"⟩⟩]) :=
  ⟨rfl, correlator_exactly_once addrA "1127233905" "1127233905" rfl⟩

/-- Claim C3 (code-bug evidence): `ExpectedMessage::contains` tests the
containment in the REVERSED direction — `self.0.contains(&part.0)` asks
whether the part is a substring of the expected token.  An empty message
part therefore "matches" any token, while a part that properly contains
the token does not match. -/
theorem containsMsg_reversed_direction :
    (ExpectedMessage.mk "abc").containsMsg ⟨[⟨""⟩]⟩ = some ⟨""⟩ ∧
    strContainsSub "" "abc" = false ∧
    (ExpectedMessage.mk "123").containsMsg ⟨[⟨"my 123 ok"⟩]⟩ = none ∧
    strContainsSub "my 123 ok" "123" = true :=
  ⟨rfl, rfl, rfl, rfl⟩

/-- Claim C4 counterexample: inserting the same address twice (allowed by
the code) leaves `addrA` listed in the reverse index under the email field
even though its stored identity no longer claims that field. -/
theorem reverse_index_broken_by_duplicate_insert :
    memIdx dupManager.lookup_addresses emailField addrA ∧
    lookupA dupManager.identities addrA = some fieldsTwo ∧
    fieldsTwo.all (fun s => decide (s.field ≠ emailField)) = true :=
  ⟨⟨[addrA], rfl, List.mem_singleton.mpr rfl⟩, rfl, rfl⟩

/-- Claim C4 (amended): after any sequence of `insert_identity`,
`update_field` and `remove_identity` from the empty manager in which every
insert hits an address not currently present, an address is listed in
`lookup_addresses(field)` iff its stored identity carries that exact
field. -/
theorem reverse_index_consistent (ops : List Op)
    (h : freshInserts IdentityManager.new ops = true) :
    consistent (applyOps IdentityManager.new ops) :=
  consistent_applyOps ops IdentityManager.new consistent_new h

/-- Claim C4 witness on a concrete fresh-insert operation sequence. -/
theorem reverse_index_consistent_witness :
    freshInserts IdentityManager.new witnessOps = true ∧
    consistent (applyOps IdentityManager.new witnessOps) :=
  ⟨rfl, reverse_index_consistent witnessOps rfl⟩

/-- Claim C5 counterexample: `insert_identity` on an already-present
address does NOT fail — it silently replaces the stored identity (so the
state is changed, not left unchanged, and no `DuplicateIdentity` error
exists in the code path). -/
theorem insert_duplicate_overwrites :
    IdentityManager.lookup_full_state dupManager addrA = some ⟨addrA, fieldsTwo⟩ ∧
    fieldsTwo ≠ fieldsOne :=
  ⟨rfl, by decide⟩

/-- Claim C5 (amended): `insert_identity` always succeeds; it stores the
new state's fields under the address (overwriting any previous entry) and
extends the reverse index with every field of the inserted state. -/
theorem insert_identity_registers (m : IdentityManager) (st : IdentityState) :
    lookupA (m.insert_identity st).identities st.net_address = some st.fields ∧
    ∀ fs ∈ st.fields,
      memIdx (m.insert_identity st).lookup_addresses fs.field st.net_address := by
  constructor
  · rw [lookupA_insert_identity, if_pos rfl]
  · intro fs hfs
    rw [memIdx_insert_identity]
    exact Or.inr ⟨rfl, fs, hfs, rfl⟩

/-- Claim C5 witness at a concrete fresh insert. -/
theorem insert_identity_registers_witness :
    lookupA (IdentityManager.new.insert_identity ⟨addrA, mixedFields⟩).identities addrA =
      some mixedFields ∧
    memIdx (IdentityManager.new.insert_identity ⟨addrA, mixedFields⟩).lookup_addresses
      validEmailStatus.field addrA :=
  ⟨(insert_identity_registers IdentityManager.new ⟨addrA, mixedFields⟩).1,
   (insert_identity_registers IdentityManager.new ⟨addrA, mixedFields⟩).2
     validEmailStatus (by simp [mixedFields])⟩

/-- Claim C6: `update_field` errs with `AddressNotFound` on an unknown
address and with `FieldNotFound` when no stored status carries the new
status's field (the error return leaves `&mut self` untouched, which the
`Except`-shaped embedding renders by producing no new state); when a
status with the same field exists it is replaced by the new status, with
the reverse index and all other addresses unchanged. -/
theorem update_field_cases (m : IdentityManager) (a : NetworkAddress) (st : FieldStatus) :
    (lookupA m.identities a = none →
      m.update_field a st = .error .addressNotFound) ∧
    (∀ fss, lookupA m.identities a = some fss →
      (∀ s ∈ fss, s.field ≠ st.field) →
      m.update_field a st = .error .fieldNotFound) ∧
    (∀ fss, lookupA m.identities a = some fss →
      st.field ∈ fss.map (fun s => s.field) →
      ∃ m', m.update_field a st = .ok m' ∧
        m'.lookup_field_status a st.field = some st ∧
        m'.lookup_addresses = m.lookup_addresses ∧
        ∀ b, b ≠ a → lookupA m'.identities b = lookupA m.identities b) := by
  refine ⟨?_, ?_, ?_⟩
  · intro h
    unfold IdentityManager.update_field
    rw [h]
  · intro fss hfss hnone
    unfold IdentityManager.update_field
    rw [hfss]
    dsimp only
    rw [replaceFirstField_none fss st hnone]
  · intro fss hfss hmem
    obtain ⟨fss', hrep⟩ := replaceFirstField_isSome fss st hmem
    refine ⟨{ m with identities := insertA m.identities a fss' }, ?_, ?_, rfl, ?_⟩
    · unfold IdentityManager.update_field
      rw [hfss]
      dsimp only
      rw [hrep]
    · show (lookupA (insertA m.identities a fss') a).bind
        (fun statuses => statuses.find? fun status => decide (status.field = st.field)) = some st
      rw [lookupA_insertA, if_pos rfl]
      exact find_replaceFirstField fss st fss' hrep
    · intro b hb
      show lookupA (insertA m.identities a fss') b = lookupA m.identities b
      rw [lookupA_insertA, if_neg hb]

/-- Claim C6 witness: the three branches at concrete inputs. -/
theorem update_field_cases_witness :
    IdentityManager.update_field IdentityManager.new addrA validEmailStatus =
      .error .addressNotFound ∧
    IdentityManager.update_field mixedManager addrA twitterStatus =
      .error .fieldNotFound ∧
    ∃ m', IdentityManager.update_field mixedManager addrA verifiedMatrixStatus = .ok m' ∧
      m'.lookup_field_status addrA verifiedMatrixStatus.field = some verifiedMatrixStatus ∧
      m'.lookup_addresses = mixedManager.lookup_addresses ∧
      ∀ b, b ≠ addrA → lookupA m'.identities b = lookupA mixedManager.identities b :=
  ⟨(update_field_cases IdentityManager.new addrA validEmailStatus).1 rfl,
   (update_field_cases mixedManager addrA twitterStatus).2.1 mixedFields rfl (by decide),
   (update_field_cases mixedManager addrA verifiedMatrixStatus).2.2 mixedFields rfl (by decide)⟩

/-- Claim C7 (code-bug evidence): `set_verified` reports `true` for a
present field but does NOT mark it `Valid` — the mutation is commented out
in the source, so the stored status stays unconfirmed. -/
theorem set_verified_does_not_mark_valid :
    (IdentityManager.set_verified unconfirmedManager addrA matrixField).1 = true ∧
    (IdentityManager.set_verified unconfirmedManager addrA matrixField).2 =
      unconfirmedManager ∧
    (((IdentityManager.set_verified unconfirmedManager addrA matrixField).2.lookup_field_status
        addrA matrixField).map (fun s => s.is_valid)) = some false :=
  ⟨rfl, rfl, rfl⟩

/-- Claim C8 (code-bug evidence): `remove_identity` is a stub returning
`false` — on a manager that does hold the address it still answers `false`
and deletes nothing. -/
theorem remove_identity_is_stub :
    IdentityManager.lookup_full_state unconfirmedManager addrA =
      some ⟨addrA, [unconfirmedMatrixStatus]⟩ ∧
    (IdentityManager.remove_identity unconfirmedManager addrA).1 = false ∧
    (IdentityManager.remove_identity unconfirmedManager addrA).2 = unconfirmedManager :=
  ⟨rfl, rfl, rfl⟩

/-- Claim C9: `verify_message` takes its receiver by shared reference —
the state component of the call is returned unchanged, and repeating the
call on that state yields the same outcome list. -/
theorem verify_message_pure (m : IdentityManager) (field : IdentityField)
    (message : ProvidedMessage) :
    (IdentityManager.verify_message_call m field message).2 = m ∧
    (IdentityManager.verify_message_call
        (IdentityManager.verify_message_call m field message).2 field message).1 =
      (IdentityManager.verify_message_call m field message).1 :=
  ⟨rfl, rfl⟩

/-- Claim C10: after an `IdentityFullyVerified` event the pending map holds
the challenge unconditionally (also when a stored remark was popped and a
signal emitted); a `RemarkFound` event never changes the pending map; and
the sequence remark–verified–remark with a matching pair from the empty
state emits TWO judgement-completed signals. -/
theorem correlator_pending_retained (s : JudgmentGiver) (addr : NetworkAddress)
    (c : OnChainChallenge) (r : String)
    (h : c.matches_remark ⟨addr, r⟩ = true) :
    lookupA ((s.project (.identityFullyVerified ⟨addr, c⟩)).1).pending addr = some c ∧
    ((s.project (.remarkFound ⟨addr, r⟩)).1).pending = s.pending ∧
    (JudgmentGiver.projectList JudgmentGiver.empty
        [.remarkFound ⟨addr, r⟩, .identityFullyVerified ⟨addr, c⟩, .remarkFound ⟨addr, r⟩]).2 =
      [⟨⟨addr, r⟩⟩, ⟨⟨addr, r⟩⟩] := by
  refine ⟨?_, ?_, ?_⟩
  · cases hr : lookupA s.remarks addr <;>
      simp [JudgmentGiver.project, hr, lookupA_insertA]
  · cases hp : lookupA s.pending (RemarkFound.mk addr r).net_address with
    | none => simp [JudgmentGiver.project, hp]
    | some ch =>
      by_cases hmatch : ch.matches_remark ⟨addr, r⟩ = true <;>
        simp [JudgmentGiver.project, hp, hmatch]
  · simp [JudgmentGiver.projectList, JudgmentGiver.project, JudgmentGiver.empty,
      insertA, eraseA, h]

/-- Claim C10 witness at a concrete address, challenge and remark. -/
theorem correlator_pending_retained_witness :
    (OnChainChallenge.mk "7450112233").matches_remark ⟨addrA, "7450112233"⟩ = true ∧
    (lookupA ((JudgmentGiver.empty.project
        (.identityFullyVerified ⟨addrA, ⟨"7450112233"⟩⟩)).1).pending addrA =
      some ⟨"7450112233"⟩ ∧
    ((JudgmentGiver.empty.project (.remarkFound ⟨addrA, "7450112233"⟩)).1).pending =
      JudgmentGiver.empty.pending ∧
    (JudgmentGiver.projectList JudgmentGiver.empty
        [.remarkFound ⟨addrA, "7450112233"⟩,
         .identityFullyVerified ⟨addrA, ⟨"7450112233"⟩⟩,
         .remarkFound ⟨addrA, "7450112233"⟩]).2 =
      [⟨⟨addrA, "7450112233"⟩⟩, ⟨⟨addrA, "7450112233"⟩⟩]) :=
  ⟨rfl, correlator_pending_retained JudgmentGiver.empty addrA ⟨"7450112233"⟩ "7450112233" rfl⟩

end Registrar
